import Mathlib

/-!
Verification of the speech-coaching application core against its
specification. The development shallowly embeds the post-processing
pipeline of the batch audio analysis (src/services/geminiService.ts,
`analyzeAudio`), the live practice session controller of the React
component (src/components/LivePractice.tsx) and of the Angular component
(src/app/components/live-practice/live-practice.component.ts), and the
PCM audio frame codec (`createBlob` / `decodeAudioData`).

Numbers are modelled as rationals: the source computes with IEEE doubles,
and every claim under study speaks in exact arithmetic (means, rounding to
2 decimals, scaling factors), so ℚ is the faithful idealisation. The two
rounding primitives of the source are `Math.round` (round half toward
positive infinity) and `Number.toFixed(2)` followed by `parseFloat`
(nearest multiple of 1/100, ties toward the larger value).
-/

/-- JS `Math.round`: the integer nearest to `q`, half rounds toward
positive infinity. -/
def jsRound (q : ℚ) : ℤ := ⌊q + 1/2⌋

/-- JS `x.toFixed(2)` re-parsed by `parseFloat`: the multiple of `1/100`
nearest to `q`, ties toward the larger value. -/
def round2 (q : ℚ) : ℚ := (⌊q * 100 + 1/2⌋ : ℚ) / 100

/-- One scored dimension of the analysis payload
(`dimensions[].{name,score}` in the response schema). -/
structure Dimension where
  name : String
  score : ℚ
deriving DecidableEq, Repr

/-- One transcript turn of the analysis payload
(`conversation[].{speaker,text,startTime,endTime}`). -/
structure ConversationTurn where
  speaker : String
  text : String
  startTime : ℚ
  endTime : ℚ
deriving DecidableEq, Repr

/-- A numeric field of the raw model payload as JS sees it: a number, the
IEEE `NaN`, or absent. `NaN`, `0` and a missing field are all falsy. -/
inductive JsNum where
  | num (q : ℚ)
  | nan
  | missing
deriving DecidableEq, Repr

/-- JS `x || 0`: a falsy value (absent field, `NaN`, `0`) becomes `0`. -/
def JsNum.orZero : JsNum → ℚ
  | .num q => q
  | .nan => 0
  | .missing => 0

/-- The parsed model response consumed by `analyzeAudio`
(src/services/geminiService.ts line 247). Fields the model may omit are
`Option` / `JsNum`; `overallScore` is a self-reported aggregate some
payloads carry even though the schema does not request it. -/
structure RawAnalysisPayload where
  primarySpeakerLabel : String
  dimensions : Option (List Dimension)
  fluencySpeechRatePercentage : JsNum
  conversation : Option (List ConversationTurn)
  overallScore : Option ℚ
deriving DecidableEq, Repr

/-- Duration of one turn with the defensive clamp of line 263:
`Math.max(0, turn.endTime - turn.startTime)`. -/
def turnDuration (t : ConversationTurn) : ℚ := max 0 (t.endTime - t.startTime)

/-- Summed clamped durations of the turns spoken by the primary speaker
(lines 261-269, the `turn.speaker === primaryLabel` branch). -/
def primarySecondsRaw (label : String) (conv : List ConversationTurn) : ℚ :=
  ((conv.filter (fun t => t.speaker == label)).map turnDuration).sum

/-- Summed clamped durations of the turns spoken by everyone else
(lines 261-269, the other branch). -/
def otherSecondsRaw (label : String) (conv : List ConversationTurn) : ℚ :=
  ((conv.filter (fun t => !(t.speaker == label))).map turnDuration).sum

/-- Normalization of lines 271-280: when the audio duration is known
positive and the summed speaking time exceeds it, both sums are scaled by
`audioDuration / totalSpoken`; otherwise they pass through. Returns
(primarySeconds, otherSeconds). -/
def normalizedSeconds (label : String) (conv : List ConversationTurn)
    (audioDuration : ℚ) : ℚ × ℚ :=
  if 0 < audioDuration ∧
      audioDuration < primarySecondsRaw label conv + otherSecondsRaw label conv then
    (primarySecondsRaw label conv *
       (audioDuration / (primarySecondsRaw label conv + otherSecondsRaw label conv)),
     otherSecondsRaw label conv *
       (audioDuration / (primarySecondsRaw label conv + otherSecondsRaw label conv)))
  else
    (primarySecondsRaw label conv, otherSecondsRaw label conv)

/-- The percentage basis of line 283, JS `audioDuration || 1`: the audio
duration when non-zero, else 1. -/
def basisDuration (audioDuration : ℚ) : ℚ :=
  if audioDuration = 0 then 1 else audioDuration

/-- One reported percentage (lines 285-294):
`Math.min(100, Math.round((seconds / basisDuration) * 100))`. -/
def speakingPercentage (seconds basis : ℚ) : ℤ :=
  min 100 (jsRound (seconds / basis * 100))

/-- The three canonical dimension names of line 299. -/
def coreDimensionNames : List String :=
  ["Clarity", "Language Proficiency", "Conciseness"]

/-- Deterministic overall score of lines 297-306: mean of the scores of
the dimensions whose name is canonical, rounded via `toFixed(2)`; `0`
when no canonical dimension is present. -/
def overallScoreOf (dims : List Dimension) : ℚ :=
  let coreDimensionScores :=
    (dims.filter (fun d => coreDimensionNames.contains d.name)).map (fun d => d.score)
  if coreDimensionScores.length = 0 then 0
  else round2 (coreDimensionScores.sum / coreDimensionScores.length)

/-- Speaking time of one side of the distribution (seconds plus rounded
clamped percentage). -/
structure SpeakerTime where
  seconds : ℚ
  percentage : ℤ
deriving DecidableEq, Repr

/-- The injected `speakingTimeDistribution` object of lines 285-294. -/
structure SpeakingTimeDistribution where
  primarySpeaker : SpeakerTime
  others : SpeakerTime
deriving DecidableEq, Repr

/-- The analysis result returned to the caller (the fields of the final
object of lines 308-314 that the claims under study exercise; the raw
qualitative fields spread in verbatim are orthogonal to them). -/
structure AnalysisResult where
  primarySpeakerLabel : String
  dimensions : List Dimension
  fluencySpeechRatePercentage : ℚ
  overallScore : ℚ
  speakingTimeDistribution : SpeakingTimeDistribution
deriving DecidableEq, Repr

/-- Post-processing of one parsed pass payload, lines 247-316 of
src/services/geminiService.ts: defaulted dimensions and fluency, manual
speaking-time computation with normalization, percentage derivation
against `audioDuration || 1`, and the deterministic overall score that
overrides anything the payload carried. -/
def analyzeAudioPost (result : RawAnalysisPayload) (audioDuration : ℚ) :
    AnalysisResult :=
  let processedDimensions := result.dimensions.getD []
  let processedFluency := result.fluencySpeechRatePercentage.orZero
  let conversation := result.conversation.getD []
  let seconds := normalizedSeconds result.primarySpeakerLabel conversation audioDuration
  let basis := basisDuration audioDuration
  { primarySpeakerLabel := result.primarySpeakerLabel
    dimensions := processedDimensions
    fluencySpeechRatePercentage := processedFluency
    overallScore := overallScoreOf processedDimensions
    speakingTimeDistribution :=
      { primarySpeaker :=
          { seconds := seconds.1, percentage := speakingPercentage seconds.1 basis }
        others :=
          { seconds := seconds.2, percentage := speakingPercentage seconds.2 basis } } }

/-- The user-facing failure message thrown by the catch block of
lines 318-321. -/
def analysisFailureMessage : String :=
  "Failed to analyze audio. The AI model is currently experiencing high traffic. Please try again in a few moments."

/-- The `analyzeAudio` operation on an already-fetched model response:
`none` stands for a response whose text `JSON.parse` rejects (the only
data-dependent failure of the function), any parsed payload is
post-processed and returned. Exactly one model request is issued per call
(lines 237-247: a single `generateContentWithRetry`, the comment of
line 246 records the single-pass design). -/
def analyzeAudio (parsedResponse : Option RawAnalysisPayload)
    (audioDuration : ℚ) : Except String AnalysisResult :=
  match parsedResponse with
  | some r => .ok (analyzeAudioPost r audioDuration)
  | none => .error analysisFailureMessage

/-- Bool test for a successful `Except`, used to state that a call did not
fail. -/
def exceptIsOk {ε α : Type} : Except ε α → Bool
  | .ok _ => true
  | .error _ => false

/-!
Live practice session controller. The React component
(src/components/LivePractice.tsx) keeps the conversation state, the
growing transcript, the playback cursor `nextStartTimeRef` and the set of
scheduled not-yet-finished playback sources `sourcesRef`. The Angular
component (src/app/components/live-practice/live-practice.component.ts)
keeps the same data. Playback sources are modelled by numeric handles
drawn from a counter; calling `stop()` on a source is recorded in a
`stoppedSources` log; the resource teardown of `endConversation` (session
close, processor disconnect, track stop, context close) is collapsed into
one `teardownDone` flag, since the claims only ask whether teardown ran.
-/

/-- The `ConversationState` union type of LivePractice.tsx line 64. -/
inductive ConversationState where
  | idle
  | connecting
  | connected
  | error
  | ended
deriving DecidableEq, Repr

/-- The two speakers of the live transcript (`TranscriptTurn.speaker`,
LivePractice.tsx line 66). -/
inductive Speaker where
  | user
  | ai
deriving DecidableEq, Repr

/-- One turn of the live transcript (LivePractice.tsx lines 65-69). -/
structure TranscriptTurn where
  speaker : Speaker
  text : String
  isFinal : Bool
deriving DecidableEq, Repr

/-- The transcription content of one server message: an input (User)
fragment, an output (AI) fragment, or neither. The source inspects
`serverContent.inputTranscription` and, else, `outputTranscription`
(lines 110 and 119), so one message carries at most one of the two. -/
inductive TranscriptionEvent where
  | input (text : String)
  | output (text : String)
  | noTranscription
deriving DecidableEq, Repr

/-- The parts of a `LiveServerMessage` the handler reads: the
transcription fragment, the `turnComplete` flag, an optional inline audio
payload (abstracted to its decoded buffer duration in seconds), and the
`interrupted` flag. -/
structure LiveServerMessage where
  transcription : TranscriptionEvent
  turnComplete : Bool
  audioChunk : Option ℚ
  interrupted : Bool
deriving DecidableEq, Repr

/-- Fragment coalescing of LivePractice.tsx lines 110-127: when the last
turn belongs to the same speaker and is not yet final, the fragment is
appended to its text; otherwise a fresh non-final turn is pushed. -/
def pushOrAppend (sp : Speaker) (text : String) (ts : List TranscriptTurn) :
    List TranscriptTurn :=
  match ts.getLast? with
  | some lastTurn =>
    if lastTurn.speaker = sp ∧ lastTurn.isFinal = false then
      ts.dropLast ++ [{ lastTurn with text := lastTurn.text ++ text }]
    else
      ts ++ [{ speaker := sp, text := text, isFinal := false }]
  | none => ts ++ [{ speaker := sp, text := text, isFinal := false }]

/-- The `turnComplete` handling of lines 129-134: the most recent turn, if
any, is marked final. -/
def markLastFinal (ts : List TranscriptTurn) : List TranscriptTurn :=
  match ts.getLast? with
  | some lastTurn => ts.dropLast ++ [{ lastTurn with isFinal := true }]
  | none => ts

/-- Dispatch of one transcription fragment to the coalescing rule, keyed
to the speaker identity (lines 110-127). -/
def applyTranscription (ev : TranscriptionEvent) (ts : List TranscriptTurn) :
    List TranscriptTurn :=
  match ev with
  | .input t => pushOrAppend .user t ts
  | .output t => pushOrAppend .ai t ts
  | .noTranscription => ts

/-- The whole `setTranscript` updater of handleMessage (lines 108-136):
fragment coalescing followed by the `turnComplete` finalisation. -/
def transcriptStep (ts : List TranscriptTurn) (m : LiveServerMessage) :
    List TranscriptTurn :=
  let ts1 := applyTranscription m.transcription ts
  if m.turnComplete then markLastFinal ts1 else ts1

/-- The controller state shared by the React refs and the Angular fields. -/
structure LiveState where
  conversationState : ConversationState
  transcript : List TranscriptTurn
  nextStartTime : ℚ
  sources : List ℕ
  stoppedSources : List ℕ
  nextSourceId : ℕ
  teardownDone : Bool
deriving DecidableEq, Repr

/-- Playback scheduling of LivePractice.tsx lines 138-156 (identically
lines 198-209 of the Angular component): the cursor is first advanced to
at least the current audio-clock time `now`, a new source is scheduled at
the cursor and tracked, and the cursor advances by the buffer duration. -/
def scheduleAudio (now : ℚ) (chunk : Option ℚ) (s : LiveState) : LiveState :=
  match chunk with
  | some duration =>
    { s with nextStartTime := max s.nextStartTime now + duration
             sources := s.sources ++ [s.nextSourceId]
             nextSourceId := s.nextSourceId + 1 }
  | none => s

/-- The interruption branch of LivePractice.tsx lines 158-164: every
tracked source is stopped and untracked, and the cursor resets to 0. -/
def applyInterruption (s : LiveState) : LiveState :=
  { s with stoppedSources := s.stoppedSources ++ s.sources
           sources := []
           nextStartTime := 0 }

/-- The full `handleMessage` of LivePractice.tsx lines 107-165: transcript
update, playback scheduling for an inline audio payload, then the
interruption branch. -/
def handleMessage (now : ℚ) (s : LiveState) (m : LiveServerMessage) :
    LiveState :=
  let s1 := { s with transcript := transcriptStep s.transcript m }
  let s2 := scheduleAudio now m.audioChunk s1
  if m.interrupted then applyInterruption s2 else s2

/-- The `handleMessage` of the Angular component (live-practice.component.ts
lines 188-209): fragment coalescing via `updateTranscript` (which never
consults a turn-complete signal) and playback scheduling. The method has
no interruption branch. -/
def ngHandleMessage (now : ℚ) (s : LiveState) (m : LiveServerMessage) :
    LiveState :=
  scheduleAudio now m.audioChunk
    { s with transcript := applyTranscription m.transcription s.transcript }

/-- The teardown `endConversation` of LivePractice.tsx lines 167-176
(identically lines 181-187 of the Angular component): session close,
capture disconnect, track stop and context close (collapsed into
`teardownDone`), then the state is set to `ended`. -/
def endConversation (s : LiveState) : LiveState :=
  { s with teardownDone := true, conversationState := .ended }

/-- The `onerror` callback of LivePractice.tsx lines 216-220: the state is
set to `error`, then `endConversation` runs. -/
def onError (s : LiveState) : LiveState :=
  endConversation { s with conversationState := .error }

/-- The synchronous prologue of `startConversation` in LivePractice.tsx
lines 178-182: the state becomes `connecting` and the transcript, the
playback cursor and the tracked-source set are reset, all before the
session connect is attempted. -/
def startConversationEntry (s : LiveState) : LiveState :=
  { s with conversationState := .connecting
           transcript := []
           nextStartTime := 0
           sources := [] }

/-- The synchronous prologue of `startConversation` in the Angular
component, lines 135-139: the same four assignments. -/
def ngStartConversationEntry (s : LiveState) : LiveState :=
  { s with conversationState := .connecting
           transcript := []
           nextStartTime := 0
           sources := [] }

/-!
PCM audio frame codec, LivePractice.tsx lines 31-61. `createBlob` stores
`data[i] * 32768` into an `Int16Array` (the JS `ToInt16` coercion:
truncation toward zero, then wrap modulo 2^16 into [-32768, 32767]) and
ships its little-endian bytes. `decodeAudioData` reads the bytes back as
an `Int16Array` and divides by 32768.0; the claims exercise the
single-channel case, so de-interleaving is the identity.
-/

/-- JS truncation toward zero of a real value, the first step of the
`ToInt16` coercion. -/
def jsTruncate (q : ℚ) : ℤ := if 0 ≤ q then ⌊q⌋ else ⌈q⌉

/-- JS `ToInt16`: truncate toward zero, wrap modulo 2^16 into the signed
16-bit range. This is what storing into an `Int16Array` performs. -/
def toInt16 (q : ℚ) : ℤ := (jsTruncate q + 32768) % 65536 - 32768

/-- The per-sample conversion of `createBlob` (line 55):
`int16[i] = data[i] * 32768`. -/
def sampleToInt16 (x : ℚ) : ℤ := toInt16 (x * 32768)

/-- Little-endian byte pair of one stored 16-bit value, as
`new Uint8Array(int16.buffer)` exposes it. -/
def int16ToBytesLE (v : ℤ) : List ℕ :=
  [(v % 65536).toNat % 256, (v % 65536).toNat / 256]

/-- The wire frame of `createBlob` (lines 51-61): every sample scaled,
truncated to int16 and packed little-endian. -/
def samplesToWireFrame (data : List ℚ) : List ℕ :=
  (data.map sampleToInt16).flatMap int16ToBytesLE

/-- Rebuild one signed 16-bit value from its little-endian byte pair, as
`new Int16Array(data.buffer)` reads it. -/
def bytesLEToInt16 (lo hi : ℕ) : ℤ :=
  if 32768 ≤ lo + 256 * hi then (lo + 256 * hi : ℤ) - 65536
  else (lo + 256 * hi : ℤ)

/-- The consecutive little-endian byte pairs of a wire frame as signed
16-bit values. -/
def wireBytesToInt16s : List ℕ → List ℤ
  | lo :: hi :: rest => bytesLEToInt16 lo hi :: wireBytesToInt16s rest
  | _ => []

/-- The decoding of `decodeAudioData` (lines 31-48) for one channel:
`channelData[i] = dataInt16[i] / 32768.0`. -/
def wireFrameToSamples (bytes : List ℕ) : List ℚ :=
  (wireBytesToInt16s bytes).map (fun v : ℤ => (v : ℚ) / 32768)

/-!
Claim theorems. Each claim of the specification is settled against the
embedded definitions above; concrete payloads and states used by
counterexamples and witnesses are declared next to their claim.
-/

/-- Concrete pass payload separating the single-pass passthrough of the
source from the multi-pass averaging described by C1: a dimension score
of 1/3 and a fluency of 111/2 pass through unrounded. -/
def c1Payload : RawAnalysisPayload :=
  { primarySpeakerLabel := "Speaker A"
    dimensions := some [{ name := "Clarity", score := 1/3 }]
    fluencySpeechRatePercentage := .num (111/2)
    conversation := some []
    overallScore := none }

/-- C1: the claim says every returned dimension score is an arithmetic
mean rounded to 2 decimal places and the returned fluency is a mean
rounded to the nearest integer. On the payload `c1Payload` the code
returns the dimension score 1/3, which differs from its own 2-decimal
rounding 33/100, and the fluency 111/2, which differs from its own
nearest-integer rounding 56 — so neither rounding happens, for any number
of identical passes. -/
theorem C1_counterexample :
    (analyzeAudioPost c1Payload 10).dimensions = [{ name := "Clarity", score := 1/3 }]
    ∧ (1 : ℚ)/3 ≠ round2 (1/3)
    ∧ (analyzeAudioPost c1Payload 10).fluencySpeechRatePercentage = 111/2
    ∧ (111 : ℚ)/2 ≠ (jsRound (111/2) : ℚ) := by
  refine ⟨rfl, ?_, rfl, ?_⟩ <;> norm_num [round2, jsRound]

/-- C1 (amended): `analyzeAudio` takes no pass count and issues exactly
one analysis pass; the returned dimensions are the dimensions of that
single pass verbatim (defaulting to the empty list when absent), with no
averaging and no rounding, and the returned fluencySpeechRatePercentage
is the value of that single pass verbatim (defaulting to 0 when absent or
NaN). -/
theorem C1_theorem : ∀ (p : RawAnalysisPayload) (d : ℚ),
    (analyzeAudioPost p d).dimensions = p.dimensions.getD []
    ∧ (analyzeAudioPost p d).fluencySpeechRatePercentage
        = p.fluencySpeechRatePercentage.orZero :=
  fun _ _ => ⟨rfl, rfl⟩

/-- C2: the returned overallScore is the 2-decimal-rounded mean of the
scores of exactly the returned dimensions named Clarity, Language
Proficiency or Conciseness, is 0 when no such dimension is present, and
is unaffected by any overallScore value carried in the raw payload. -/
theorem C2_theorem : ∀ (p : RawAnalysisPayload) (d q : ℚ),
    (analyzeAudioPost p d).overallScore =
      (if (((p.dimensions.getD []).filter
              (fun dm => coreDimensionNames.contains dm.name)).map
              (fun dm => dm.score)).length = 0 then 0
       else round2 ((((p.dimensions.getD []).filter
              (fun dm => coreDimensionNames.contains dm.name)).map
              (fun dm => dm.score)).sum /
            ((((p.dimensions.getD []).filter
              (fun dm => coreDimensionNames.contains dm.name)).map
              (fun dm => dm.score)).length : ℚ)))
    ∧ analyzeAudioPost { p with overallScore := some q } d = analyzeAudioPost p d :=
  fun _ _ _ => ⟨rfl, rfl⟩

/-- Concrete pass payload whose fluency field is NaN. -/
def c9Payload : RawAnalysisPayload :=
  { primarySpeakerLabel := "User"
    dimensions := some [{ name := "Clarity", score := 4 }]
    fluencySpeechRatePercentage := .nan
    conversation := some []
    overallScore := none }

/-- C9: the claim says a pass payload with a NaN numeric field (for
example fluencySpeechRatePercentage) fails the pass. On `c9Payload`
(fluency = NaN) the call succeeds and returns fluency 0: the NaN is
coerced to 0 by the falsy-default `|| 0`, not failed. -/
theorem C9_counterexample :
    exceptIsOk (analyzeAudio (some c9Payload) 10) = true
    ∧ (analyzeAudio (some c9Payload) 10).map
        (fun r => r.fluencySpeechRatePercentage) = Except.ok 0 :=
  ⟨rfl, rfl⟩

/-- C9 (amended): a pass payload whose fluencySpeechRatePercentage is NaN
or missing is not failed: the call succeeds and the value is coerced to
the defensive default 0 by the falsy-default `|| 0`; an unparsable
response payload, by contrast, fails the call with the analysis failure
message. -/
theorem C9_theorem : ∀ (p : RawAnalysisPayload) (d : ℚ),
    p.fluencySpeechRatePercentage = JsNum.nan ∨
    p.fluencySpeechRatePercentage = JsNum.missing →
    exceptIsOk (analyzeAudio (some p) d) = true
    ∧ (analyzeAudio (some p) d).map (fun r => r.fluencySpeechRatePercentage)
        = Except.ok 0
    ∧ analyzeAudio none d = Except.error analysisFailureMessage := by
  intro p d h
  refine ⟨rfl, ?_, rfl⟩
  show Except.ok (JsNum.orZero p.fluencySpeechRatePercentage) = Except.ok 0
  cases h with
  | inl h => rw [h]; rfl
  | inr h => rw [h]; rfl

/-- Witness for C9 at the concrete NaN payload and duration 10. -/
theorem C9_witness :
    (c9Payload.fluencySpeechRatePercentage = JsNum.nan ∨
     c9Payload.fluencySpeechRatePercentage = JsNum.missing)
    ∧ (exceptIsOk (analyzeAudio (some c9Payload) 10) = true
      ∧ (analyzeAudio (some c9Payload) 10).map
          (fun r => r.fluencySpeechRatePercentage) = Except.ok 0
      ∧ analyzeAudio none 10 = Except.error analysisFailureMessage) :=
  ⟨Or.inl rfl, C9_theorem c9Payload 10 (Or.inl rfl)⟩

/-- The conversation state is untouched by message handling: every branch
of `handleMessage` updates only transcript and playback fields. -/
theorem handleMessage_conversationState (now : ℚ) (s : LiveState)
    (m : LiveServerMessage) :
    (handleMessage now s m).conversationState = s.conversationState := by
  cases ha : m.audioChunk <;> cases hi : m.interrupted <;>
    simp [handleMessage, scheduleAudio, applyInterruption, ha, hi]

/-- Concrete connected session state for C5. -/
def c5State : LiveState :=
  { conversationState := .connected
    transcript := []
    nextStartTime := 2
    sources := [0]
    stoppedSources := []
    nextSourceId := 1
    teardownDone := false }

/-- C5: the claim says that after a transport error in the connected
state the controller state remains `error` until a fresh
startConversation. On the connected state `c5State` the onerror callback
leaves the controller in state `ended`, not `error`: the teardown it
triggers (`endConversation`) unconditionally overwrites the state. -/
theorem C5_counterexample :
    (onError c5State).conversationState = ConversationState.ended
    ∧ (onError c5State).conversationState ≠ ConversationState.error :=
  ⟨rfl, by decide⟩

/-- C5 (amended): a transport error delivered in the connected state sets
the state to `error` and triggers teardown, but the teardown ends by
setting the state to `ended`, so the session instance finishes in the
terminal `ended` state (the `error` assignment is transient); the state
then stays `ended` across further messages until a fresh
startConversation re-enters `connecting`. -/
theorem C5_theorem : ∀ (s : LiveState),
    s.conversationState = ConversationState.connected →
    (onError s).conversationState = ConversationState.ended
    ∧ (onError s).teardownDone = true
    ∧ (∀ (now : ℚ) (m : LiveServerMessage),
        (handleMessage now (onError s) m).conversationState
          = ConversationState.ended)
    ∧ (startConversationEntry (onError s)).conversationState
        = ConversationState.connecting := by
  intro s _
  refine ⟨rfl, rfl, ?_, rfl⟩
  intro now m
  rw [handleMessage_conversationState]
  rfl

/-- Witness for C5 at the concrete connected state. -/
theorem C5_witness :
    c5State.conversationState = ConversationState.connected
    ∧ ((onError c5State).conversationState = ConversationState.ended
      ∧ (onError c5State).teardownDone = true
      ∧ (∀ (now : ℚ) (m : LiveServerMessage),
          (handleMessage now (onError c5State) m).conversationState
            = ConversationState.ended)
      ∧ (startConversationEntry (onError c5State)).conversationState
          = ConversationState.connecting) :=
  ⟨rfl, C5_theorem c5State rfl⟩

/-- Scheduling an optional audio chunk never touches the stop log. -/
theorem scheduleAudio_stoppedSources (now : ℚ) (c : Option ℚ) (s : LiveState) :
    (scheduleAudio now c s).stoppedSources = s.stoppedSources := by
  cases c <;> rfl

/-- Scheduling an optional audio chunk keeps every already-tracked
source tracked. -/
theorem scheduleAudio_sources_mem (now : ℚ) (c : Option ℚ) (s : LiveState)
    (h : ℕ) (hh : h ∈ s.sources) : h ∈ (scheduleAudio now c s).sources := by
  cases c with
  | none => exact hh
  | some d => exact List.mem_append_left _ hh

/-- Concrete Angular session state with two pending playback sources. -/
def c6NgState : LiveState :=
  { conversationState := .connected
    transcript := []
    nextStartTime := 5
    sources := [0, 1]
    stoppedSources := []
    nextSourceId := 2
    teardownDone := false }

/-- A pure interruption message. -/
def c6InterruptMsg : LiveServerMessage :=
  { transcription := .noTranscription
    turnComplete := false
    audioChunk := none
    interrupted := true }

/-- C6: the claim quantifies over every live session controller, but the
Angular controller ignores the interruption signal: delivering an
interruption message to `c6NgState` (two pending scheduled sources,
cursor at 5) leaves both sources scheduled and the cursor unchanged,
instead of the claimed empty handle set and zero cursor. -/
theorem C6_counterexample :
    (ngHandleMessage 7 c6NgState c6InterruptMsg).sources = [0, 1]
    ∧ (ngHandleMessage 7 c6NgState c6InterruptMsg).nextStartTime = 5
    ∧ ([0, 1] : List ℕ) ≠ []
    ∧ (5 : ℚ) ≠ 0 :=
  ⟨rfl, rfl, by decide, by norm_num⟩

/-- C6 (amended): in the React LivePractice controller an interruption
signal stops every currently scheduled source, empties the scheduled
handle set and resets the nextStartTime cursor to 0; the Angular
live-practice component has no interruption handling and leaves its
playback state unchanged. -/
theorem C6_theorem : ∀ (now : ℚ) (s : LiveState) (m : LiveServerMessage),
    m.interrupted = true →
    (handleMessage now s m).sources = []
    ∧ (handleMessage now s m).nextStartTime = 0
    ∧ ∀ h ∈ s.sources, h ∈ (handleMessage now s m).stoppedSources := by
  intro now s m hm
  have hstep : handleMessage now s m =
      applyInterruption (scheduleAudio now m.audioChunk
        { s with transcript := transcriptStep s.transcript m }) := by
    unfold handleMessage
    rw [hm]
    simp
  refine ⟨by rw [hstep]; rfl, by rw [hstep]; rfl, ?_⟩
  intro h hh
  rw [hstep]
  exact List.mem_append_right _
    (scheduleAudio_sources_mem now m.audioChunk _ h hh)

/-- Concrete React session state with two pending playback sources. -/
def c6ReactState : LiveState :=
  { conversationState := .connected
    transcript := []
    nextStartTime := 9
    sources := [4, 5]
    stoppedSources := []
    nextSourceId := 6
    teardownDone := false }

/-- Witness for C6 at the concrete React state and a pure interruption
message. -/
theorem C6_witness :
    c6InterruptMsg.interrupted = true
    ∧ ((handleMessage 3 c6ReactState c6InterruptMsg).sources = []
      ∧ (handleMessage 3 c6ReactState c6InterruptMsg).nextStartTime = 0
      ∧ ∀ h ∈ c6ReactState.sources,
          h ∈ (handleMessage 3 c6ReactState c6InterruptMsg).stoppedSources) :=
  ⟨rfl, C6_theorem 3 c6ReactState c6InterruptMsg rfl⟩

/-- Concrete terminal (error) state for C10. -/
def c10State : LiveState :=
  { conversationState := .error
    transcript := [{ speaker := .user, text := "hi", isFinal := true }]
    nextStartTime := 3
    sources := [7]
    stoppedSources := []
    nextSourceId := 8
    teardownDone := true }

/-- C10: invoked from idle, ended or error, the startConversation
prologue (in both the React and the Angular component) enters the
connecting state with the transcript cleared, the playback cursor reset
to 0 and the scheduled-source set emptied, before any connection attempt;
the reset runs on every invocation, not only from idle. -/
theorem C10_theorem : ∀ (s : LiveState),
    s.conversationState = ConversationState.idle ∨
    s.conversationState = ConversationState.ended ∨
    s.conversationState = ConversationState.error →
    ((startConversationEntry s).conversationState = ConversationState.connecting
    ∧ (startConversationEntry s).transcript = []
    ∧ (startConversationEntry s).nextStartTime = 0
    ∧ (startConversationEntry s).sources = [])
    ∧ ((ngStartConversationEntry s).conversationState = ConversationState.connecting
    ∧ (ngStartConversationEntry s).transcript = []
    ∧ (ngStartConversationEntry s).nextStartTime = 0
    ∧ (ngStartConversationEntry s).sources = []) :=
  fun _ _ => ⟨⟨rfl, rfl, rfl, rfl⟩, ⟨rfl, rfl, rfl, rfl⟩⟩

/-- Witness for C10 at a concrete error-state session. -/
theorem C10_witness :
    (c10State.conversationState = ConversationState.idle ∨
     c10State.conversationState = ConversationState.ended ∨
     c10State.conversationState = ConversationState.error)
    ∧ (((startConversationEntry c10State).conversationState = ConversationState.connecting
    ∧ (startConversationEntry c10State).transcript = []
    ∧ (startConversationEntry c10State).nextStartTime = 0
    ∧ (startConversationEntry c10State).sources = [])
    ∧ ((ngStartConversationEntry c10State).conversationState = ConversationState.connecting
    ∧ (ngStartConversationEntry c10State).transcript = []
    ∧ (ngStartConversationEntry c10State).nextStartTime = 0
    ∧ (ngStartConversationEntry c10State).sources = [])) :=
  ⟨Or.inr (Or.inr rfl), C10_theorem c10State (Or.inr (Or.inr rfl))⟩

/-- C3: whenever the audio duration is known positive and the summed
clamped turn durations exceed it, the normalization scales both speaking
sums by audioDuration / totalSpoken, so the returned seconds sum to at
most the audio duration (in exact arithmetic, to exactly it). -/
theorem C3_theorem : ∀ (p : RawAnalysisPayload) (d : ℚ),
    0 < d →
    d < primarySecondsRaw p.primarySpeakerLabel (p.conversation.getD [])
          + otherSecondsRaw p.primarySpeakerLabel (p.conversation.getD []) →
    (analyzeAudioPost p d).speakingTimeDistribution.primarySpeaker.seconds
      + (analyzeAudioPost p d).speakingTimeDistribution.others.seconds ≤ d := by
  intro p d hd hlt
  have key : ∀ (a b : ℚ), 0 < d → d < a + b →
      a * (d / (a + b)) + b * (d / (a + b)) ≤ d := by
    intro a b h1 h2
    have hab : 0 < a + b := lt_trans h1 h2
    have hne : a + b ≠ 0 := ne_of_gt hab
    have heq : a * (d / (a + b)) + b * (d / (a + b)) = d := by
      field_simp
      ring
    exact le_of_eq heq
  show (normalizedSeconds p.primarySpeakerLabel (p.conversation.getD []) d).1
      + (normalizedSeconds p.primarySpeakerLabel (p.conversation.getD []) d).2 ≤ d
  unfold normalizedSeconds
  rw [if_pos ⟨hd, hlt⟩]
  exact key _ _ hd hlt

/-- Concrete payload realising the over-claiming transcript of the
specification scenario: turns (0,30) for User and (25,40) for Other
against a 40-second file, raw sums 30 + 15 = 45 > 40. -/
def c3Payload : RawAnalysisPayload :=
  { primarySpeakerLabel := "User"
    dimensions := none
    fluencySpeechRatePercentage := .missing
    conversation := some
      [{ speaker := "User", text := "", startTime := 0, endTime := 30 },
       { speaker := "Other", text := "", startTime := 25, endTime := 40 }]
    overallScore := none }

/-- Witness for C3 at the scenario transcript and duration 40. -/
theorem C3_witness :
    (0 : ℚ) < 40
    ∧ (40 : ℚ) < primarySecondsRaw c3Payload.primarySpeakerLabel
          (c3Payload.conversation.getD [])
        + otherSecondsRaw c3Payload.primarySpeakerLabel
          (c3Payload.conversation.getD [])
    ∧ (analyzeAudioPost c3Payload 40).speakingTimeDistribution.primarySpeaker.seconds
        + (analyzeAudioPost c3Payload 40).speakingTimeDistribution.others.seconds
        ≤ 40 :=
  ⟨by norm_num,
   by
    simp only [c3Payload, primarySecondsRaw, otherSecondsRaw, turnDuration,
      List.filter, List.map, List.sum_cons, List.sum_nil, Option.getD_some,
      Bool.not_true, Bool.not_false,
      (by simp : (("Other" : String) == "User") = false),
      (by simp : (("User" : String) == "User") = true)]
    norm_num,
   C3_theorem c3Payload 40 (by norm_num)
     (by
      simp only [c3Payload, primarySecondsRaw, otherSecondsRaw, turnDuration,
        List.filter, List.map, List.sum_cons, List.sum_nil, Option.getD_some,
        Bool.not_true, Bool.not_false,
        (by simp : (("Other" : String) == "User") = false),
        (by simp : (("User" : String) == "User") = true)]
      norm_num)⟩

/-- C4: for any non-negative probed duration the percentage basis is
never zero (it is 1 exactly when the duration is 0, so nothing divides by
zero and, in exact arithmetic, no NaN or infinity can arise), and each
reported percentage is the rounded ratio of the reported seconds to the
basis, clamped above at 100. -/
theorem C4_theorem : ∀ (p : RawAnalysisPayload) (d : ℚ), 0 ≤ d →
    (d = 0 → basisDuration d = 1)
    ∧ 0 < basisDuration d
    ∧ (analyzeAudioPost p d).speakingTimeDistribution.primarySpeaker.percentage
        = min 100 (jsRound
            ((analyzeAudioPost p d).speakingTimeDistribution.primarySpeaker.seconds
              / basisDuration d * 100))
    ∧ (analyzeAudioPost p d).speakingTimeDistribution.others.percentage
        = min 100 (jsRound
            ((analyzeAudioPost p d).speakingTimeDistribution.others.seconds
              / basisDuration d * 100)) := by
  intro p d hd
  refine ⟨fun h => by simp [basisDuration, h], ?_, rfl, rfl⟩
  by_cases h : d = 0
  · simp [basisDuration, h]
  · show 0 < if d = 0 then 1 else d
    rw [if_neg h]
    exact lt_of_le_of_ne hd (Ne.symm h)

/-- Concrete payload with one spoken turn against a zero (unknown)
duration. -/
def c4Payload : RawAnalysisPayload :=
  { primarySpeakerLabel := "User"
    dimensions := none
    fluencySpeechRatePercentage := .missing
    conversation := some
      [{ speaker := "User", text := "", startTime := 0, endTime := 3 }]
    overallScore := none }

/-- Witness for C4 at duration 0, the divide-by-zero guard case. -/
theorem C4_witness :
    (0 : ℚ) ≤ 0
    ∧ (((0 : ℚ) = 0 → basisDuration 0 = 1)
      ∧ 0 < basisDuration 0
      ∧ (analyzeAudioPost c4Payload 0).speakingTimeDistribution.primarySpeaker.percentage
          = min 100 (jsRound
              ((analyzeAudioPost c4Payload 0).speakingTimeDistribution.primarySpeaker.seconds
                / basisDuration 0 * 100))
      ∧ (analyzeAudioPost c4Payload 0).speakingTimeDistribution.others.percentage
          = min 100 (jsRound
              ((analyzeAudioPost c4Payload 0).speakingTimeDistribution.others.seconds
                / basisDuration 0 * 100))) :=
  ⟨le_refl 0, C4_theorem c4Payload 0 (le_refl 0)⟩

/-- A server message carrying one non-final input-transcription fragment
and nothing else. -/
def inputFragmentMessage (t : String) : LiveServerMessage :=
  { transcription := .input t
    turnComplete := false
    audioChunk := none
    interrupted := false }

/-- A server message carrying only the turn-complete signal. -/
def turnCompleteMessage : LiveServerMessage :=
  { transcription := .noTranscription
    turnComplete := true
    audioChunk := none
    interrupted := false }

/-- The transcript produced by a sequence of server messages, message
handlers applied in arrival order. -/
def runTranscript (ts : List TranscriptTurn) (ms : List LiveServerMessage) :
    List TranscriptTurn :=
  ms.foldl transcriptStep ts

/-- Whether the most recent transcript turn is an open (non-final) User
turn, the condition under which the next input fragment coalesces. -/
def lastIsOpenUser (ts : List TranscriptTurn) : Bool :=
  match ts.getLast? with
  | some l => decide (l.speaker = Speaker.user) && !l.isFinal
  | none => false

/-- Concatenation of fragments in arrival order. -/
def concatFrags : List String → String
  | [] => ""
  | f :: fs => f ++ concatFrags fs

/-- An input fragment coalesces into an open trailing User turn by text
concatenation. -/
theorem pushOrAppend_open (ts : List TranscriptTurn) (u t : String) :
    pushOrAppend Speaker.user t
        (ts ++ [{ speaker := Speaker.user, text := u, isFinal := false }])
      = ts ++ [{ speaker := Speaker.user, text := u ++ t, isFinal := false }] := by
  unfold pushOrAppend
  rw [List.getLast?_concat]
  simp [List.dropLast_concat]

/-- An input fragment arriving when the last turn is not an open User
turn starts a fresh non-final User turn. -/
theorem pushOrAppend_not_open (ts : List TranscriptTurn) (t : String)
    (h : lastIsOpenUser ts = false) :
    pushOrAppend Speaker.user t ts
      = ts ++ [{ speaker := Speaker.user, text := t, isFinal := false }] := by
  unfold pushOrAppend
  unfold lastIsOpenUser at h
  cases hl : ts.getLast? with
  | none => rfl
  | some l =>
    rw [hl] at h
    have h2 : (decide (l.speaker = Speaker.user) && !l.isFinal) = false := h
    have hcond : ¬(l.speaker = Speaker.user ∧ l.isFinal = false) := by
      intro hc
      rw [hc.1, hc.2] at h2
      simp at h2
    simp [hcond]

/-- A fragment arriving after a final trailing turn starts a fresh
non-final turn and leaves the final turn untouched. -/
theorem pushOrAppend_final (ts : List TranscriptTurn) (l : TranscriptTurn)
    (hl : l.isFinal = true) (sp : Speaker) (t : String) :
    pushOrAppend sp t (ts ++ [l])
      = ts ++ [l, { speaker := sp, text := t, isFinal := false }] := by
  unfold pushOrAppend
  rw [List.getLast?_concat]
  simp [hl]

/-- The turn-complete signal marks the trailing turn final in place. -/
theorem markLastFinal_concat (ts : List TranscriptTurn) (l : TranscriptTurn) :
    markLastFinal (ts ++ [l]) = ts ++ [{ l with isFinal := true }] := by
  unfold markLastFinal
  rw [List.getLast?_concat]
  simp [List.dropLast_concat]

/-- Running a list of input fragments over a transcript whose trailing
turn is an open User turn concatenates all fragments into that turn. -/
theorem runTranscript_frags_open (fs : List String) :
    ∀ (ts : List TranscriptTurn) (u : String),
    runTranscript (ts ++ [{ speaker := Speaker.user, text := u, isFinal := false }])
        (fs.map inputFragmentMessage)
      = ts ++ [{ speaker := Speaker.user, text := u ++ concatFrags fs,
                 isFinal := false }] := by
  induction fs with
  | nil =>
    intro ts u
    simp [runTranscript, concatFrags]
  | cons f fs ih =>
    intro ts u
    rw [List.map_cons]
    show runTranscript
        (transcriptStep (ts ++ [{ speaker := Speaker.user, text := u, isFinal := false }])
          (inputFragmentMessage f)) (fs.map inputFragmentMessage) = _
    rw [show transcriptStep
          (ts ++ [{ speaker := Speaker.user, text := u, isFinal := false }])
          (inputFragmentMessage f)
        = ts ++ [{ speaker := Speaker.user, text := u ++ f, isFinal := false }]
      from pushOrAppend_open ts u f]
    rw [ih ts (u ++ f)]
    simp [concatFrags, String.append_assoc]

/-- C7: a sequence of n non-final User input fragments followed by a
turn-complete signal, arriving over any transcript whose trailing turn is
not an open User turn, yields exactly one final User turn holding the
concatenation of the fragments in arrival order; and once that turn is
final, a further fragment from the same speaker starts a new turn and
leaves it untouched. -/
theorem C7_theorem : ∀ (ts : List TranscriptTurn) (frags : List String),
    frags ≠ [] →
    lastIsOpenUser ts = false →
    runTranscript ts (frags.map inputFragmentMessage ++ [turnCompleteMessage])
      = ts ++ [{ speaker := Speaker.user, text := concatFrags frags, isFinal := true }]
    ∧ ∀ (t : String),
        transcriptStep
          (ts ++ [{ speaker := Speaker.user, text := concatFrags frags, isFinal := true }])
          (inputFragmentMessage t)
        = ts ++ [{ speaker := Speaker.user, text := concatFrags frags, isFinal := true },
                 { speaker := Speaker.user, text := t, isFinal := false }] := by
  intro ts frags hne hopen
  constructor
  · rw [runTranscript, List.foldl_append]
    cases frags with
    | nil => exact absurd rfl hne
    | cons f fs =>
      simp only [List.map_cons, List.foldl_cons, List.foldl_nil]
      rw [show transcriptStep ts (inputFragmentMessage f)
          = ts ++ [{ speaker := Speaker.user, text := f, isFinal := false }]
        from pushOrAppend_not_open ts f hopen]
      have h2 := runTranscript_frags_open fs ts f
      rw [runTranscript] at h2
      rw [h2]
      show markLastFinal
          (ts ++ [{ speaker := Speaker.user, text := f ++ concatFrags fs,
                    isFinal := false }]) = _
      rw [markLastFinal_concat]
      rfl
  · intro t
    show pushOrAppend Speaker.user t
        (ts ++ [{ speaker := Speaker.user, text := concatFrags frags,
                  isFinal := true }]) = _
    rw [pushOrAppend_final ts
      { speaker := Speaker.user, text := concatFrags frags, isFinal := true }
      rfl Speaker.user t]

/-- Witness for C7: three concrete fragments over the empty transcript,
the specification scenario. -/
theorem C7_witness :
    (["How ", "are ", "you?"] : List String) ≠ []
    ∧ lastIsOpenUser [] = false
    ∧ (runTranscript []
          ((["How ", "are ", "you?"] : List String).map inputFragmentMessage
            ++ [turnCompleteMessage])
        = [] ++ [{ speaker := Speaker.user,
                   text := concatFrags ["How ", "are ", "you?"], isFinal := true }]
      ∧ ∀ (t : String),
          transcriptStep
            ([] ++ [{ speaker := Speaker.user,
                      text := concatFrags ["How ", "are ", "you?"], isFinal := true }])
            (inputFragmentMessage t)
          = [] ++ [{ speaker := Speaker.user,
                     text := concatFrags ["How ", "are ", "you?"], isFinal := true },
                   { speaker := Speaker.user, text := t, isFinal := false }]) :=
  ⟨by simp, rfl, C7_theorem [] ["How ", "are ", "you?"] (by simp) rfl⟩

/-- Truncation toward zero lands within distance 1 of its argument. -/
theorem abs_jsTruncate_sub_le (q : ℚ) : |(jsTruncate q : ℚ) - q| ≤ 1 := by
  unfold jsTruncate
  split
  · rw [abs_le]
    constructor
    · linarith [Int.sub_one_lt_floor q]
    · linarith [Int.floor_le q]
  · rw [abs_le]
    constructor
    · linarith [Int.le_ceil q]
    · linarith [Int.ceil_lt_add_one q]

/-- Truncation of a value in [-32768, 32768) stays inside the signed
16-bit range. -/
theorem jsTruncate_range (q : ℚ) (h1 : -32768 ≤ q) (h2 : q < 32768) :
    -32768 ≤ jsTruncate q ∧ jsTruncate q ≤ 32767 := by
  unfold jsTruncate
  split
  · rename_i h
    constructor
    · have : (0 : ℤ) ≤ ⌊q⌋ := Int.floor_nonneg.mpr h
      omega
    · have : ⌊q⌋ < 32768 := Int.floor_lt.mpr (by exact_mod_cast h2)
      omega
  · rename_i h
    constructor
    · have : ((-32768 : ℤ) : ℚ) ≤ (⌈q⌉ : ℚ) :=
        le_trans (by exact_mod_cast h1) (Int.le_ceil q)
      exact_mod_cast this
    · have : ⌈q⌉ ≤ 0 := Int.ceil_le.mpr (by exact_mod_cast le_of_not_le h)
      omega

/-- For samples strictly below 1 the modular wrap of `ToInt16` is the
identity: the stored value is the plain truncation. -/
theorem sampleToInt16_eq (x : ℚ) (h1 : -1 ≤ x) (h2 : x < 1) :
    sampleToInt16 x = jsTruncate (x * 32768) := by
  have hb := jsTruncate_range (x * 32768) (by linarith) (by linarith)
  unfold sampleToInt16 toInt16
  omega

/-- Per-sample round-trip bound: decode of encode differs from a sample
in [-1, 1) by at most one quantisation step. -/
theorem sample_roundtrip (x : ℚ) (h1 : -1 ≤ x) (h2 : x < 1) :
    |((sampleToInt16 x : ℤ) : ℚ) / 32768 - x| ≤ 1 / 32768 := by
  rw [sampleToInt16_eq x h1 h2]
  have h := abs_jsTruncate_sub_le (x * 32768)
  have heq : ((jsTruncate (x * 32768) : ℚ)) / 32768 - x
      = ((jsTruncate (x * 32768) : ℚ) - x * 32768) / 32768 := by ring
  rw [heq, abs_div, abs_of_pos (by norm_num : (0 : ℚ) < 32768)]
  exact (div_le_div_iff_of_pos_right (by norm_num)).mpr h

/-- Reading back the little-endian byte pair of an in-range 16-bit value
recovers the value. -/
theorem wireBytes_cons (v : ℤ) (rest : List ℕ)
    (h1 : -32768 ≤ v) (h2 : v ≤ 32767) :
    wireBytesToInt16s (int16ToBytesLE v ++ rest) = v :: wireBytesToInt16s rest := by
  have hu : ((v % 65536).toNat : ℤ) = v % 65536 :=
    Int.toNat_of_nonneg (Int.emod_nonneg v (by norm_num))
  show bytesLEToInt16 ((v % 65536).toNat % 256) ((v % 65536).toNat / 256)
      :: wireBytesToInt16s rest = v :: wireBytesToInt16s rest
  congr 1
  unfold bytesLEToInt16
  split <;> omega

/-- C8 (amended): for every float sample sequence with each value in
[-1, 1), packing to the 16-bit little-endian wire frame and decoding back
recovers each sample within 1/32768; the endpoint 1 itself is excluded,
because the `ToInt16` store wraps 32768 to -32768. -/
theorem C8_theorem : ∀ (s : List ℚ), (∀ x ∈ s, -1 ≤ x ∧ x < 1) →
    List.Forall₂ (fun a b => |b - a| ≤ 1 / 32768) s
      (wireFrameToSamples (samplesToWireFrame s)) := by
  intro s
  induction s with
  | nil => intro _; exact List.Forall₂.nil
  | cons x s ih =>
    intro hs
    have hx := hs x (List.mem_cons_self x s)
    have hrange := jsTruncate_range (x * 32768)
      (by linarith [hx.1]) (by linarith [hx.2])
    have hv1 : -32768 ≤ sampleToInt16 x := by
      rw [sampleToInt16_eq x hx.1 hx.2]; exact hrange.1
    have hv2 : sampleToInt16 x ≤ 32767 := by
      rw [sampleToInt16_eq x hx.1 hx.2]; exact hrange.2
    have hdecomp : wireFrameToSamples (samplesToWireFrame (x :: s))
        = ((sampleToInt16 x : ℚ) / 32768)
          :: wireFrameToSamples (samplesToWireFrame s) := by
      unfold wireFrameToSamples samplesToWireFrame
      rw [List.map_cons, List.flatMap_cons, wireBytes_cons _ _ hv1 hv2,
        List.map_cons]
    rw [hdecomp]
    exact List.Forall₂.cons (sample_roundtrip x hx.1 hx.2)
      (ih fun y hy => hs y (List.mem_cons_of_mem x hy))

/-- C8: the claim admits every sample value in the closed interval
[-1, 1], but at the endpoint 1 the encoder computes 1 * 32768 = 32768,
which the `Int16Array` store wraps to -32768, so the decoded sample is
-1 and the round-trip error is 2, far above 1/32768. -/
theorem C8_counterexample :
    wireFrameToSamples (samplesToWireFrame [1]) = [-1]
    ∧ ¬(|(-1 : ℚ) - 1| ≤ 1 / 32768) := by
  constructor
  · have h1 : sampleToInt16 1 = -32768 := by
      norm_num [sampleToInt16, toInt16, jsTruncate]
    have h2 : samplesToWireFrame [1] = [0, 128] := by
      simp only [samplesToWireFrame, List.map_cons, List.map_nil,
        List.flatMap_cons, List.flatMap_nil, h1, int16ToBytesLE]
      norm_num
      decide
    rw [h2]
    norm_num [wireFrameToSamples, wireBytesToInt16s, bytesLEToInt16]
  · rw [show ((-1 : ℚ) - 1) = -2 by norm_num,
      abs_of_neg (by norm_num : (-2 : ℚ) < 0)]
    norm_num

/-- Witness for C8 at a concrete four-sample frame inside [-1, 1). -/
theorem C8_witness :
    (∀ x ∈ [(1 : ℚ)/2, -1/2, 0, -1], -1 ≤ x ∧ x < 1)
    ∧ List.Forall₂ (fun a b => |b - a| ≤ 1 / 32768) [(1 : ℚ)/2, -1/2, 0, -1]
        (wireFrameToSamples (samplesToWireFrame [(1 : ℚ)/2, -1/2, 0, -1])) :=
  ⟨by norm_num, C8_theorem _ (by norm_num)⟩
